import Mathlib

/-!
Verification of `task/section2_reference/solutions/identify_infected.py`.

The script is three lines:

  infected_cluster = dbscan.fit_predict(gdf.loc[gdf['infected'] == 1, ['northing', 'easting']])
  gdf['cluster'] = dbscan.labels_
  print(f'{len(dbscan.labels_.unique())} distinct clusters of infected found')

The DBSCAN implementation itself is a library call and is not part of the
repository sources, so the clustering algorithm is modelled from the spec's
design-level description (section 4.1): eps-neighbourhoods under Euclidean
distance, core points with at least minPts neighbours including self,
clusters as transitive closures of core-core adjacency, border points
joining the first-discovered adjacent cluster, noise labelled -1, and
cluster identifiers assigned in order of discovery.
-/

namespace IdentifyInfected

/-- A 2-D point: (northing, easting), numeric coordinates as rationals. -/
abbrev Point : Type := ℚ × ℚ

/-- Modelled from the spec: squared Euclidean distance in the 2-D
coordinate space (spec 4.1 step 1). -/
def distSq (p q : Point) : ℚ :=
  (p.1 - q.1) ^ 2 + (p.2 - q.2) ^ 2

/-- Modelled from the spec: `q` is within distance `eps` of `p`
(compared on squares to stay in ℚ). -/
def isNeighbor (eps : ℚ) (p q : Point) : Bool :=
  decide (distSq p q ≤ eps ^ 2)

/-- Default point used for out-of-range index access (never reached on
indices below the length). -/
def dfltPt : Point := ((0 : ℚ), (0 : ℚ))

/-- Modelled from the spec: indices of all points of `pts` within `eps`
of point `i` (including `i` itself, spec 4.1 steps 1-2). -/
def nbrs (pts : List Point) (eps : ℚ) (i : ℕ) : List ℕ :=
  (List.range pts.length).filter
    (fun j => isNeighbor eps (pts.getD i dfltPt) (pts.getD j dfltPt))

/-- Modelled from the spec: point `i` is a core point when it has at
least `minPts` neighbours, itself included (spec 4.1 step 2). -/
def isCore (pts : List Point) (eps : ℚ) (minPts : ℕ) (i : ℕ) : Bool :=
  decide (minPts ≤ (nbrs pts eps i).length)

/-- Modelled from the spec: core points `i` and `j` are directly
connected when both are core and mutually within `eps` (spec 4.1 step 3). -/
def coreAdj (pts : List Point) (eps : ℚ) (minPts : ℕ) (i j : ℕ) : Bool :=
  isCore pts eps minPts i && isCore pts eps minPts j &&
    isNeighbor eps (pts.getD i dfltPt) (pts.getD j dfltPt)

/-- One expansion step of a set of indices by core-core adjacency:
keeps every index already present and adds all indices directly
connected to a member. -/
def expand (pts : List Point) (eps : ℚ) (minPts : ℕ) (s : List ℕ) : List ℕ :=
  (List.range pts.length).filter
    (fun j => s.contains j || s.any (fun i => coreAdj pts eps minPts i j))

/-- Modelled from the spec: the connected component of core point `i`
under transitive core-core adjacency (spec 4.1 step 3), computed by
iterating `expand` as many times as there are points. -/
def compOf (pts : List Point) (eps : ℚ) (minPts : ℕ) (i : ℕ) : List ℕ :=
  (expand pts eps minPts)^[pts.length] [i]

/-- Smallest index in the component of `i` (the component list is an
ascending filter of `List.range`, so its head is its minimum). -/
def compMin (pts : List Point) (eps : ℚ) (minPts : ℕ) (i : ℕ) : ℕ :=
  (compOf pts eps minPts i).headD i

/-- Modelled from the spec: cluster identifiers are assigned in the order
clusters are first discovered when scanning points in input order
(spec 4.1 step 5); the identifier of the cluster of core point `i` is
therefore the number of distinct components whose smallest member
precedes the smallest member of the component of `i`. -/
def clusterId (pts : List Point) (eps : ℚ) (minPts : ℕ) (i : ℕ) : ℕ :=
  ((((List.range pts.length).filter (fun c => isCore pts eps minPts c)).map
      (fun c => compMin pts eps minPts c)).filter
      (fun v => decide (v < compMin pts eps minPts i))).dedup.length

/-- Label of a border point from the cluster identifiers of its core
neighbours: the first-discovered (smallest-id) adjacent cluster claims
it (spec 4.1 step 4); with no core neighbour the point is noise. -/
def borderLabel (ids : List ℕ) : ℤ :=
  match ids with
  | [] => -1
  | c :: cs => ((cs.foldl min c : ℕ) : ℤ)

/-- Modelled from the spec: the label of point `i` (spec 4.1 steps 3-5):
a core point gets its cluster identifier, a non-core point gets the
identifier of the first-discovered cluster among its core neighbours,
and a point with no core neighbour is noise (`-1`). -/
def pointLabel (pts : List Point) (eps : ℚ) (minPts : ℕ) (i : ℕ) : ℤ :=
  if isCore pts eps minPts i then (clusterId pts eps minPts i : ℤ)
  else borderLabel
    (((nbrs pts eps i).filter (fun j => isCore pts eps minPts j)).map
      (fun j => clusterId pts eps minPts j))

/-- Modelled from the spec: the Cluster Assigner (`dbscan.fit_predict`,
not part of the repository sources): given the ordered sequence of
points, produce an ordered sequence of integer labels, one per input
point, in input order (spec 4.1 contract). -/
def fitPredict (pts : List Point) (eps : ℚ) (minPts : ℕ) : List ℤ :=
  (List.range pts.length).map (fun i => pointLabel pts eps minPts i)

/-- The reporting step of line 3: `len(dbscan.labels_.unique())`, the
number of unique entries of the raw label list. -/
def reportedCount (pts : List Point) (eps : ℚ) (minPts : ℕ) : ℕ :=
  (fitPredict pts eps minPts).dedup.length

/-- A row of the full table `gdf`: coordinates and the infected flag. -/
structure Row where
  northing : ℚ
  easting : ℚ
  infected : Bool
  deriving DecidableEq, Repr

/-- Line 1's column selection: the (northing, easting) pairs of the
rows with `infected == 1`, in row order. -/
def infectedPoints (rows : List Row) : List Point :=
  (rows.filter (fun r => r.infected)).map (fun r => (r.northing, r.easting))

/-- Modelled from the spec: line 2's write-back, assigning the label
array onto the full table's `cluster` column directly by position
(spec 4.1 side effect, spec 9): row `i` receives label `i`; rows beyond
the end of the label array receive no label. No length or alignment
check is performed. -/
def positionalAssign : List Row → List ℤ → List (Option ℤ)
  | [], _ => []
  | _ :: rs, [] => none :: positionalAssign rs []
  | _ :: rs, l :: ls => some l :: positionalAssign rs ls

/-- Modelled from the spec: the correct, alignment-respecting write-back
(spec 9's abstract requirement): the j-th infected row receives the
j-th label, non-infected rows receive no label. -/
def alignedAssign : List Row → List ℤ → List (Option ℤ)
  | [], _ => []
  | r :: rs, ls =>
    if r.infected then ls.head? :: alignedAssign rs ls.tail
    else none :: alignedAssign rs ls

/-- A table with a non-infected row occurring before some infected row:
exactly the shape on which positional write-back misattaches labels. -/
def misalignedRows : List Row → Bool
  | [] => false
  | r :: rs => (!r.infected && rs.any (fun x => x.infected)) || misalignedRows rs

/-- The whole script on the full table: the `cluster` column written in
line 2 and the distinct-label count printed in line 3. `dbscan.labels_`
holds the same label sequence `fit_predict` returned in line 1. -/
def scriptRun (rows : List Row) (eps : ℚ) (minPts : ℕ) : List (Option ℤ) × ℕ :=
  let labels := fitPredict (infectedPoints rows) eps minPts
  (positionalAssign rows labels, labels.dedup.length)

/-- Modelled from the spec: the failure condition the spec's error
section claims for the clustering step ("fails if fewer than minPts
total points are supplied", spec 4.1 errors). -/
def clusteringFailsSpec (pts : List Point) (minPts : ℕ) : Bool :=
  decide (pts.length < minPts)

/-- Two points share a cluster under a label list: equal labels, and
not the noise sentinel. -/
def sameCluster (labels : List ℤ) (i j : ℕ) : Prop :=
  labels.getD i (-1) = labels.getD j (-1) ∧ labels.getD i (-1) ≠ -1

/-! ## Helper lemmas -/

theorem length_fitPredict (pts : List Point) (eps : ℚ) (minPts : ℕ) :
    (fitPredict pts eps minPts).length = pts.length := by
  simp [fitPredict]

theorem getElem?_fitPredict (pts : List Point) (eps : ℚ) (minPts : ℕ)
    (i : ℕ) (h : i < pts.length) :
    (fitPredict pts eps minPts)[i]? = some (pointLabel pts eps minPts i) := by
  simp [fitPredict, List.getElem?_map, List.getElem?_range, h]

theorem isCore_eq_false_of_short (pts : List Point) (eps : ℚ) (minPts : ℕ)
    (h : pts.length < minPts) (i : ℕ) : isCore pts eps minPts i = false := by
  have hle : (nbrs pts eps i).length ≤ pts.length := by
    calc (nbrs pts eps i).length ≤ (List.range pts.length).length :=
          List.length_filter_le _ _
      _ = pts.length := List.length_range _
  simp only [isCore, decide_eq_false_iff_not, not_le]
  exact Nat.lt_of_le_of_lt hle h

theorem pointLabel_eq_noise_of_short (pts : List Point) (eps : ℚ) (minPts : ℕ)
    (h : pts.length < minPts) (i : ℕ) : pointLabel pts eps minPts i = -1 := by
  have hc := isCore_eq_false_of_short pts eps minPts h
  simp [pointLabel, hc, borderLabel]

theorem mem_fitPredict_eq_noise_of_short (pts : List Point) (eps : ℚ) (minPts : ℕ)
    (h : pts.length < minPts) : ∀ l ∈ fitPredict pts eps minPts, l = -1 := by
  intro l hl
  rcases List.mem_map.mp hl with ⟨i, _, hi⟩
  rw [← hi]
  exact pointLabel_eq_noise_of_short pts eps minPts h i

theorem length_positionalAssign :
    ∀ (rows : List Row) (ls : List ℤ),
      (positionalAssign rows ls).length = rows.length
  | [], _ => rfl
  | _ :: rs, [] => by simp [positionalAssign, length_positionalAssign rs []]
  | _ :: rs, _ :: ls => by simp [positionalAssign, length_positionalAssign rs ls]

theorem length_infectedPoints (rows : List Row) :
    (infectedPoints rows).length = (rows.filter (fun r => r.infected)).length := by
  simp [infectedPoints]

theorem any_infected_of_misaligned :
    ∀ rows : List Row, misalignedRows rows = true →
      rows.any (fun r => r.infected) = true := by
  intro rows
  induction rows with
  | nil => intro hbad; simp [misalignedRows] at hbad
  | cons r rs ih =>
    intro hbad
    have hbad2 : ((!r.infected && rs.any (fun x => x.infected)) ||
        misalignedRows rs) = true := hbad
    rw [Bool.or_eq_true] at hbad2
    rcases hbad2 with h | h
    · rw [Bool.and_eq_true] at h
      simp only [List.any_cons, h.2, Bool.or_true]
    · simp only [List.any_cons, ih h, Bool.or_true]

theorem filter_infected_ne_nil (rows : List Row)
    (h : rows.any (fun r => r.infected) = true) :
    rows.filter (fun r => r.infected) ≠ [] := by
  rcases List.any_eq_true.mp h with ⟨r, hr, hinf⟩
  exact List.ne_nil_of_mem (List.mem_filter.mpr ⟨hr, hinf⟩)

theorem positionalAssign_ne_alignedAssign (rows : List Row) :
    ∀ ls : List ℤ,
      ls.length = (rows.filter (fun r => r.infected)).length →
      misalignedRows rows = true →
      positionalAssign rows ls ≠ alignedAssign rows ls := by
  induction rows with
  | nil => intro ls _ hbad; simp [misalignedRows] at hbad
  | cons r rs ih =>
    intro ls hlen hbad
    have hbad2 : ((!r.infected && rs.any (fun x => x.infected)) ||
        misalignedRows rs) = true := hbad
    cases hr : r.infected
    · have hor : rs.any (fun x => x.infected) = true ∨ misalignedRows rs = true := by
        rw [hr] at hbad2
        simp only [Bool.not_false, Bool.true_and, Bool.or_eq_true] at hbad2
        exact hbad2
      have hany : rs.any (fun x => x.infected) = true := by
        rcases hor with h | h
        · exact h
        · exact any_infected_of_misaligned rs h
      have hlen2 : ls.length = (rs.filter (fun x => x.infected)).length := by
        simpa [List.filter_cons, hr] using hlen
      cases ls with
      | nil =>
        have : rs.filter (fun x => x.infected) = [] :=
          (List.length_eq_zero).mp hlen2.symm
        exact absurd this (filter_infected_ne_nil rs hany)
      | cons l ls2 =>
        intro heq
        simp [positionalAssign, alignedAssign, hr] at heq
    · have hbad3 : misalignedRows rs = true := by
        rw [hr] at hbad2
        simpa only [Bool.not_true, Bool.false_and, Bool.false_or] using hbad2
      have hlen2 : ls.length = (rs.filter (fun x => x.infected)).length + 1 := by
        simpa [List.filter_cons, hr] using hlen
      cases ls with
      | nil => simp at hlen2
      | cons l ls2 =>
        have hlen3 : ls2.length = (rs.filter (fun x => x.infected)).length := by
          simpa using hlen2
        intro heq
        have heq2 : positionalAssign rs ls2 = alignedAssign rs ls2 := by
          simpa [positionalAssign, alignedAssign, hr] using heq
        exact ih ls2 hlen3 hbad3 heq2

/-! ## Claim theorems

Concrete inputs are evaluated by `decide`; the rational arithmetic
operations are restored to their definitional reducibility for that. -/

attribute [local semireducible] Rat.mul Rat.add Rat.sub Rat.inv

/-- Claim C1: for every input point set, the Cluster Assigner produces an
ordered sequence of integer labels with exactly one label per input point,
of length equal to the input sequence length, and in the same order as the
input points (position `i` of the output is the label of input point `i`). -/
theorem C1_label_per_point (pts : List Point) (eps : ℚ) (minPts : ℕ) :
    (fitPredict pts eps minPts).length = pts.length ∧
    ∀ i, i < pts.length →
      (fitPredict pts eps minPts)[i]? = some (pointLabel pts eps minPts i) :=
  ⟨length_fitPredict pts eps minPts,
    fun i hi => getElem?_fitPredict pts eps minPts i hi⟩

/-- Claim C2, counterexample: a table that contains a non-infected row but
on which the positional write-back attaches every label to the right row
(the non-infected row comes after all infected rows), so the claim's
universally quantified "silently attaches labels to the wrong rows" fails. -/
theorem C2_counterexample :
    (([⟨0, 0, true⟩, ⟨5, 5, false⟩] : List Row).any (fun r => !r.infected)) = true ∧
    positionalAssign ([⟨0, 0, true⟩, ⟨5, 5, false⟩] : List Row)
        (fitPredict (infectedPoints ([⟨0, 0, true⟩, ⟨5, 5, false⟩] : List Row)) 1 1) =
      alignedAssign ([⟨0, 0, true⟩, ⟨5, 5, false⟩] : List Row)
        (fitPredict (infectedPoints ([⟨0, 0, true⟩, ⟨5, 5, false⟩] : List Row)) 1 1) := by
  decide

/-- Claim C2, amended: the write-back of the infected-only label array onto
the full table's `cluster` column always completes without any detected
error (it is total and yields one entry per row), and whenever some
non-infected row occurs before an infected row it silently attaches labels
to the wrong rows; the alignment mismatch is neither detected nor handled. -/
theorem C2_positional_writeback (rows : List Row) (eps : ℚ) (minPts : ℕ) :
    (positionalAssign rows (fitPredict (infectedPoints rows) eps minPts)).length
        = rows.length ∧
    (misalignedRows rows = true →
      positionalAssign rows (fitPredict (infectedPoints rows) eps minPts) ≠
        alignedAssign rows (fitPredict (infectedPoints rows) eps minPts)) := by
  refine ⟨length_positionalAssign rows _, fun hbad => ?_⟩
  apply positionalAssign_ne_alignedAssign rows _ _ hbad
  rw [length_fitPredict]
  exact length_infectedPoints rows

/-- Witness for C2's amended theorem at a concrete misaligned table. -/
theorem C2_positional_writeback_witness :
    misalignedRows ([⟨5, 5, false⟩, ⟨0, 0, true⟩] : List Row) = true ∧
    positionalAssign ([⟨5, 5, false⟩, ⟨0, 0, true⟩] : List Row)
        (fitPredict (infectedPoints ([⟨5, 5, false⟩, ⟨0, 0, true⟩] : List Row)) 1 1) ≠
      alignedAssign ([⟨5, 5, false⟩, ⟨0, 0, true⟩] : List Row)
        (fitPredict (infectedPoints ([⟨5, 5, false⟩, ⟨0, 0, true⟩] : List Row)) 1 1) :=
  ⟨by decide,
    (C2_positional_writeback ([⟨5, 5, false⟩, ⟨0, 0, true⟩] : List Row) 1 1).2 (by decide)⟩

/-- Claim C3: the printed count equals the number of distinct values
occurring in the raw label sequence produced by the clustering call, with
the noise sentinel counted as a distinct value whenever any point is
labeled noise. -/
theorem C3_distinct_count (pts : List Point) (eps : ℚ) (minPts : ℕ) :
    reportedCount pts eps minPts = (fitPredict pts eps minPts).toFinset.card ∧
    ((-1 : ℤ) ∈ fitPredict pts eps minPts →
      (-1 : ℤ) ∈ (fitPredict pts eps minPts).toFinset) :=
  ⟨by simp [reportedCount, List.card_toFinset],
    fun h => List.mem_toFinset.mpr h⟩

/-- Witness for C3 at a concrete input containing a noise point. -/
theorem C3_distinct_count_witness :
    (-1 : ℤ) ∈ (fitPredict [((0 : ℚ), (0 : ℚ)), ((10 : ℚ), (10 : ℚ))] 1 2).toFinset :=
  (C3_distinct_count [((0 : ℚ), (0 : ℚ)), ((10 : ℚ), (10 : ℚ))] 1 2).2 (by decide)

/-- Claim C4: for every point set containing fewer than `minPts` total
points, every label in the output sequence is the noise sentinel `-1`. -/
theorem C4_all_noise_below_minPts (pts : List Point) (eps : ℚ) (minPts : ℕ)
    (h : pts.length < minPts) : ∀ l ∈ fitPredict pts eps minPts, l = -1 :=
  mem_fitPredict_eq_noise_of_short pts eps minPts h

/-- Witness for C4 on a one-point set with `minPts = 2`. -/
theorem C4_all_noise_below_minPts_witness :
    (fitPredict [((0 : ℚ), (0 : ℚ))] 1 2).getD 0 0 = -1 :=
  C4_all_noise_below_minPts [((0 : ℚ), (0 : ℚ))] 1 2 (by decide)
    ((fitPredict [((0 : ℚ), (0 : ℚ))] 1 2).getD 0 0) (by decide)

/-- Claim C5, counterexample: with one point supplied and `minPts = 2`
(fewer than `minPts` total points) the spec's stated failure condition
holds, yet the clustering step does not fail: it produces the length-1
all-noise labeling. -/
theorem C5_counterexample :
    clusteringFailsSpec [((0 : ℚ), (0 : ℚ))] 2 = true ∧
    fitPredict [((0 : ℚ), (0 : ℚ))] 1 2 = [-1] ∧
    (fitPredict [((0 : ℚ), (0 : ℚ))] 1 2).length = 1 := by
  decide

/-- Claim C5, amended: on a point set with fewer than `minPts` total points
the clustering step does not fail: it succeeds and labels every point
noise. (Non-numeric coordinate values are excluded by the data model, so
the only remaining failure condition of the claim never occurs.) -/
theorem C5_short_input_succeeds (pts : List Point) (eps : ℚ) (minPts : ℕ)
    (h : pts.length < minPts) :
    fitPredict pts eps minPts = List.replicate pts.length (-1) := by
  have hrep := List.eq_replicate_of_mem (mem_fitPredict_eq_noise_of_short pts eps minPts h)
  rwa [length_fitPredict] at hrep

/-- Witness for C5's amended theorem on a one-point set with `minPts = 2`. -/
theorem C5_short_input_succeeds_witness :
    fitPredict [((0 : ℚ), (0 : ℚ))] 1 2 =
      List.replicate ([((0 : ℚ), (0 : ℚ))] : List Point).length (-1) :=
  C5_short_input_succeeds [((0 : ℚ), (0 : ℚ))] 1 2 (by decide)

/-- Claim C6: for every finite input point set the clustering computation
terminates (the model is a total function) and produces a label for every
input point. -/
theorem C6_total_terminating (pts : List Point) (eps : ℚ) (minPts : ℕ) :
    ∃ labels : List ℤ, fitPredict pts eps minPts = labels ∧
      labels.length = pts.length :=
  ⟨fitPredict pts eps minPts, rfl, length_fitPredict pts eps minPts⟩

/-- Claim C7: two runs of the Cluster Assigner on the same point set with
the same `eps` and `minPts` yield the same partition of points into
clusters: any two points share a cluster in the first run exactly when they
share a cluster in the second run. -/
theorem C7_partition_idempotent (pts : List Point) (eps : ℚ) (minPts : ℕ)
    (run1 run2 : List ℤ)
    (h1 : run1 = fitPredict pts eps minPts)
    (h2 : run2 = fitPredict pts eps minPts) (i j : ℕ) :
    (sameCluster run1 i j ↔ sameCluster run2 i j) := by
  subst h1
  subst h2
  exact Iff.rfl

/-- Witness for C7 on a concrete two-point set. -/
theorem C7_partition_idempotent_witness :
    sameCluster (fitPredict [((0 : ℚ), (0 : ℚ)), ((0 : ℚ), (1 : ℚ))] 1 1) 0 1 ↔
      sameCluster (fitPredict [((0 : ℚ), (0 : ℚ)), ((0 : ℚ), (1 : ℚ))] 1 1) 0 1 :=
  C7_partition_idempotent [((0 : ℚ), (0 : ℚ)), ((0 : ℚ), (1 : ℚ))] 1 1 _ _ rfl rfl 0 1

/-- Claim C8, counterexample: on the points `[(0,0), (0,1), (0,2), (10,10)]`
with `eps = 3/2` and `minPts = 2` the reported count (unique entries of the
raw label list) is 2, not 1: the naive unique-count includes the noise
sentinel. -/
theorem C8_counterexample :
    reportedCount [((0 : ℚ), (0 : ℚ)), ((0 : ℚ), (1 : ℚ)), ((0 : ℚ), (2 : ℚ)),
        ((10 : ℚ), (10 : ℚ))] (3 / 2) 2 = 2 ∧
    reportedCount [((0 : ℚ), (0 : ℚ)), ((0 : ℚ), (1 : ℚ)), ((0 : ℚ), (2 : ℚ)),
        ((10 : ℚ), (10 : ℚ))] (3 / 2) 2 ≠ 1 := by
  decide

/-- Claim C8, amended: on the points `[(0,0), (0,1), (0,2), (10,10)]` with
`eps = 3/2` and `minPts = 2`, the first three points receive one common
cluster label, the point `(10,10)` is labeled noise, and the reported count
is 2 distinct label values (the single cluster plus the noise sentinel,
which the source's naive unique-count includes). -/
theorem C8_scenario :
    fitPredict [((0 : ℚ), (0 : ℚ)), ((0 : ℚ), (1 : ℚ)), ((0 : ℚ), (2 : ℚ)),
        ((10 : ℚ), (10 : ℚ))] (3 / 2) 2 = [0, 0, 0, -1] ∧
    reportedCount [((0 : ℚ), (0 : ℚ)), ((0 : ℚ), (1 : ℚ)), ((0 : ℚ), (2 : ℚ)),
        ((10 : ℚ), (10 : ℚ))] (3 / 2) 2 = 2 := by
  decide

/-- Claim C9: on the empty infected-point set the produced label sequence
is empty and the reported distinct-cluster count is 0. -/
theorem C9_empty_input (eps : ℚ) (minPts : ℕ) :
    fitPredict [] eps minPts = [] ∧ reportedCount [] eps minPts = 0 :=
  ⟨rfl, rfl⟩

/-- Claim C10: the `cluster` column is assigned exactly from the label
sequence returned by the clustering call on the infected rows (written
positionally), the printed count is the unique-count of that same
sequence, and two runs of the script on identical inputs produce identical
results. -/
theorem C10_deterministic_run (rows : List Row) (eps : ℚ) (minPts : ℕ)
    (out1 out2 : List (Option ℤ) × ℕ)
    (h1 : out1 = scriptRun rows eps minPts)
    (h2 : out2 = scriptRun rows eps minPts) :
    out1.1 = positionalAssign rows (fitPredict (infectedPoints rows) eps minPts) ∧
    out1.2 = (fitPredict (infectedPoints rows) eps minPts).dedup.length ∧
    out1 = out2 := by
  subst h1
  subst h2
  exact ⟨rfl, rfl, rfl⟩

/-- Witness for C10 on a concrete one-row table. -/
theorem C10_deterministic_run_witness :
    (scriptRun ([⟨0, 0, true⟩] : List Row) 1 1).1 =
      positionalAssign ([⟨0, 0, true⟩] : List Row)
        (fitPredict (infectedPoints ([⟨0, 0, true⟩] : List Row)) 1 1) ∧
    (scriptRun ([⟨0, 0, true⟩] : List Row) 1 1).2 =
      (fitPredict (infectedPoints ([⟨0, 0, true⟩] : List Row)) 1 1).dedup.length ∧
    scriptRun ([⟨0, 0, true⟩] : List Row) 1 1 =
      scriptRun ([⟨0, 0, true⟩] : List Row) 1 1 :=
  C10_deterministic_run ([⟨0, 0, true⟩] : List Row) 1 1 _ _ rfl rfl

end IdentifyInfected
